import Mathlib

/-!
Verification development for a pub-protocol front end over a generic
artifact store (Python sources: `main.py`, `src/api/api.py`,
`src/data/repositories/artifact_repository_dart_wrapper_repository.py`,
`src/data/services/artifact_registry_api_service.py`,
`src/domain/models/models.py`).

Modelling conventions (shallow embedding):

* Raw archive bytes are a `List Nat` (one entry per byte) paired with the
  outcome of the external decoders that the source applies to them
  (`tarfile.open` + `yaml.safe_load`): implementing gzip/tar/YAML byte
  decoding is out of scope, so a `ByteData` carries both the raw bytes
  (hashed by `calculate_sha256`, measured by `List.length`) and the
  member list the tar reader would yield (`ArchiveData`), with each
  member carrying what UTF-8 decoding plus YAML parsing of its content
  would yield (`ContentParse`).
* Python `datetime` values are modelled by their RFC3339 source strings;
  `datetime.fromisoformat` is abstracted as accepting every non-empty
  string (the store emits RFC3339 strings, whose code-point order is
  chronological order); format-invalid timestamp strings are outside the
  model.  The falsy check `if not date_string` maps `None` and `""` to
  `None`, exactly as the source's `parse_datetime` does.
* Exceptions become `Except` values: the store calls
  (`list_package_versions`, `download_package_file`, `upload_package` of
  `ArtifactRegistryService`) either raise (`Except.error` carrying
  `str(e)`) or return, and the repository's `try/except` blocks become
  `match` on those values.  The exception classes of the (absent)
  `domain.models.exceptions` module are modelled by the inductive
  `PkgError`; a plain `raise Exception(...)` is `PkgError.genericError`.
* Python's stable `list.sort(key=..., reverse=True)` is modelled by a
  stable insertion sort (`sort_by_create_time_desc`) on the same key
  `x.get("create_time") or ""`, comparing strings by code points as
  Python does.
-/

/-- YAML documents as produced by `yaml.safe_load`: `null`, booleans,
integers, strings, sequences and mappings.  (Floats and other scalar
styles are not needed by any claim.) -/
inductive Yaml where
  | null
  | bool (b : Bool)
  | int (n : Int)
  | str (s : String)
  | seq (items : List Yaml)
  | map (entries : List (String × Yaml))

/-- Outcome of `pubspec_file.read().decode("utf-8")` followed by
`yaml.safe_load(content)` on one tar member's content: either one of the
two raises, or a parsed `Yaml` document results. -/
inductive ContentParse where
  | parseFail
  | parsed (y : Yaml)

/-- One entry of `tar.getmembers()`: its path, and `none` when
`tar.extractfile(member)` returns `None` (non-regular member), otherwise
the parse outcome of its content. -/
structure TarMember where
  name : String
  file : Option ContentParse

/-- What `tarfile.open(fileobj=..., mode="r:gz")` + `getmembers()` yield
on a byte sequence: a raised exception (not a gzip tar) or the member
list. -/
inductive ArchiveData where
  | notATarGz
  | entries (members : List TarMember)

/-- A byte string: the raw bytes plus the tar-reader view of them (see
the module docstring). -/
structure ByteData where
  raw : List Nat
  asArchive : ArchiveData

/-- Python `s.endswith(suffix)`. -/
def str_ends_with (s suffix : String) : Bool :=
  List.isSuffixOf suffix.toList s.toList

/-- The member loop of `extract_pubspec_from_archive`: scan
`tar.getmembers()` in order; on the first member whose name ends with
`pubspec.yaml` and which `extractfile` can open, return the parse result
of its content, degrading to the empty mapping if parsing raises; if the
loop finishes, return the empty mapping. -/
def find_pubspec : List TarMember → Yaml
  | [] => Yaml.map []
  | m :: rest =>
    if str_ends_with m.name "pubspec.yaml" then
      match m.file with
      | none => find_pubspec rest
      | some ContentParse.parseFail => Yaml.map []
      | some (ContentParse.parsed y) => y
    else find_pubspec rest

/-- `PackageRepository._extract_pubspec_from_archive` (identical to
`ArtifactRegistryPubServer.extract_pubspec_from_archive` in `main.py`):
open the bytes as a gzip tar, degrade to the empty mapping `{}` when the
container cannot be opened, otherwise run the member loop.  Note the
found member's document is returned as parsed, which may be `null` for
an empty document. -/
def extract_pubspec_from_archive (b : ByteData) : Yaml :=
  match b.asArchive with
  | ArchiveData.notATarGz => Yaml.map []
  | ArchiveData.entries ms => find_pubspec ms

/-- Python truthiness of a YAML document (`if not pubspec`). -/
def yaml_truthy : Yaml → Bool
  | Yaml.null => false
  | Yaml.bool b => b
  | Yaml.int n => n != 0
  | Yaml.str s => !(s == "")
  | Yaml.seq items => !items.isEmpty
  | Yaml.map entries => !entries.isEmpty

/-- Python `dict.get(k)` on a parsed mapping (the abstract parser yields
mappings with distinct keys, so first match suffices). -/
def dict_get (entries : List (String × Yaml)) (k : String) : Option Yaml :=
  match entries.find? (fun e => e.1 == k) with
  | none => none
  | some e => some e.2

/-- Python truthiness of `dict.get`'s result (`if not package_name`). -/
def opt_truthy : Option Yaml → Bool
  | none => false
  | some y => yaml_truthy y

/-- Python `str()` of a YAML scalar, used when interpolating the
extracted name/version into URLs (container stringification is not
modelled precisely; no claim depends on it). -/
def py_str : Yaml → String
  | Yaml.null => "None"
  | Yaml.bool b => if b then "True" else "False"
  | Yaml.int n => toString n
  | Yaml.str s => s
  | Yaml.seq _ => "[...]"
  | Yaml.map _ => "\x7b...\x7d"

/-! ### SHA-256 (`hashlib.sha256(data).hexdigest()`)

A direct FIPS 180-4 implementation over `Nat` with explicit reduction
modulo `2 ^ 32`, so that `calculate_sha256` is executable and its output
shape can be proved. -/

/-- The 64 SHA-256 round constants (FIPS 180-4 §4.2.2, in decimal). -/
def sha256K : List Nat :=
  [1116352408, 1899447441, 3049323471, 3921009573, 961987163, 1508970993,
   2453635748, 2870763221, 3624381080, 310598401, 607225278, 1426881987,
   1925078388, 2162078206, 2614888103, 3248222580, 3835390401, 4022224774,
   264347078, 604807628, 770255983, 1249150122, 1555081692, 1996064986,
   2554220882, 2821834349, 2952996808, 3210313671, 3336571891, 3584528711,
   113926993, 338241895, 666307205, 773529912, 1294757372, 1396182291,
   1695183700, 1986661051, 2177026350, 2456956037, 2730485921, 2820302411,
   3259730800, 3345764771, 3516065817, 3600352804, 4094571909, 275423344,
   430227734, 506948616, 659060556, 883997877, 958139571, 1322822218,
   1537002063, 1747873779, 1955562222, 2024104815, 2227730452, 2361852424,
   2428436474, 2756734187, 3204031479, 3329325298]

/-- The eight SHA-256 working words. -/
structure Hash8 where
  a : Nat
  b : Nat
  c : Nat
  d : Nat
  e : Nat
  f : Nat
  g : Nat
  h : Nat

/-- SHA-256 initial hash value (FIPS 180-4 §5.3.3, in decimal). -/
def sha256init : Hash8 :=
  ⟨1779033703, 3144134277, 1013904242, 2773480762,
   1359893119, 2600822924, 528734635, 1541459225⟩

/-- Rotate a 32-bit word right by `n`. -/
def rotr32 (n w : Nat) : Nat :=
  ((w >>> n) ||| (w <<< (32 - n))) % 2 ^ 32

/-- SHA-256 padding: append `0x80`, zeros to 56 mod 64, then the bit
length as 8 big-endian bytes. -/
def sha256pad (msg : List Nat) : List Nat :=
  let L := msg.length
  let z := (119 - L % 64) % 64
  msg ++ 128 :: List.replicate z 0 ++
    (List.range 8).map (fun k => 8 * L / 2 ^ (8 * (7 - k)) % 256)

/-- Split a byte list into 64-byte chunks (structural recursion on a
fuel bound so the definition reduces in the kernel; the fuel is always
sufficient since every step drops at least one element). -/
def to_chunks_fuel : Nat → List Nat → List (List Nat)
  | 0, _ => []
  | _, [] => []
  | fuel + 1, x :: xs => ((x :: xs).take 64) :: to_chunks_fuel fuel ((x :: xs).drop 64)

/-- Split a byte list into 64-byte chunks. -/
def to_chunks (l : List Nat) : List (List Nat) :=
  to_chunks_fuel l.length l

/-- Assemble big-endian 32-bit words from bytes. -/
def bytes_to_words : List Nat → List Nat
  | b0 :: b1 :: b2 :: b3 :: rest =>
    (b0 % 256 * 16777216 + b1 % 256 * 65536 + b2 % 256 * 256 + b3 % 256) :: bytes_to_words rest
  | _ => []

/-- Extend the 16-word message schedule by `n` further words. -/
def extend_schedule : Nat → List Nat → List Nat
  | 0, w => w
  | n + 1, w =>
    let i := w.length
    let w15 := w.getD (i - 15) 0
    let w2 := w.getD (i - 2) 0
    let w16 := w.getD (i - 16) 0
    let w7 := w.getD (i - 7) 0
    let s0 := rotr32 7 w15 ^^^ rotr32 18 w15 ^^^ (w15 >>> 3)
    let s1 := rotr32 17 w2 ^^^ rotr32 19 w2 ^^^ (w2 >>> 10)
    extend_schedule n (w ++ [(w16 + s0 + w7 + s1) % 2 ^ 32])

/-- One SHA-256 round, consuming one `(k, w)` pair. -/
def sha256round (s : Hash8) (kw : Nat × Nat) : Hash8 :=
  let S1 := rotr32 6 s.e ^^^ rotr32 11 s.e ^^^ rotr32 25 s.e
  let ch := (s.e &&& s.f) ^^^ ((s.e ^^^ 4294967295) &&& s.g)
  let temp1 := (s.h + S1 + ch + kw.1 + kw.2) % 2 ^ 32
  let S0 := rotr32 2 s.a ^^^ rotr32 13 s.a ^^^ rotr32 22 s.a
  let maj := (s.a &&& s.b) ^^^ (s.a &&& s.c) ^^^ (s.b &&& s.c)
  let temp2 := (S0 + maj) % 2 ^ 32
  ⟨(temp1 + temp2) % 2 ^ 32, s.a, s.b, s.c, (s.d + temp1) % 2 ^ 32, s.e, s.f, s.g⟩

/-- Compress one 64-byte chunk into the running hash. -/
def sha256chunk (s : Hash8) (chunk : List Nat) : Hash8 :=
  let w := extend_schedule 48 (bytes_to_words chunk)
  let t := (sha256K.zip w).foldl sha256round s
  ⟨(s.a + t.a) % 2 ^ 32, (s.b + t.b) % 2 ^ 32, (s.c + t.c) % 2 ^ 32, (s.d + t.d) % 2 ^ 32,
   (s.e + t.e) % 2 ^ 32, (s.f + t.f) % 2 ^ 32, (s.g + t.g) % 2 ^ 32, (s.h + t.h) % 2 ^ 32⟩

/-- The final SHA-256 state of a byte message. -/
def sha256state (data : List Nat) : Hash8 :=
  (to_chunks (sha256pad data)).foldl sha256chunk sha256init

/-- The sixteen lowercase hex digits. -/
def hexDigits : List Char := "0123456789abcdef".toList

/-- The lowercase hex digit of a nibble. -/
def hexDigit (n : Nat) : Char := hexDigits.getD n '0'

/-- Eight lowercase hex characters of one 32-bit word, most significant
nibble first. -/
def word_to_hex (w : Nat) : List Char :=
  (List.range 8).map (fun k => hexDigit (w / 16 ^ (7 - k) % 16))

/-- `PackageRepository._calculate_sha256` (identical to
`ArtifactRegistryPubServer.calculate_sha256` in `main.py`):
`hashlib.sha256(data).hexdigest()` — SHA-256 over the exact raw bytes,
hex-encoded lowercase. -/
def calculate_sha256 (data : List Nat) : String :=
  let s := sha256state data
  String.mk (word_to_hex s.a ++ word_to_hex s.b ++ word_to_hex s.c ++ word_to_hex s.d ++
    word_to_hex s.e ++ word_to_hex s.f ++ word_to_hex s.g ++ word_to_hex s.h)


/-! ### Domain models (`src/domain/models/models.py`) -/

/-- `PackageVersion` dataclass; `datetime` fields are modelled by their
RFC3339 strings (module docstring). -/
structure PackageVersion where
  name : String
  version : String
  create_time : Option String := none
  update_time : Option String := none
  archive_url : Option String := none
  archive_sha256 : Option String := none
  pubspec : Option Yaml := none
  retracted : Bool := false

/-- `PackageMetadata` dataclass. -/
structure PackageMetadata where
  pubspec : Yaml
  archive_sha256 : String
  size : Nat

/-- `Package` dataclass. -/
structure Package where
  name : String
  latest : PackageVersion
  versions : List PackageVersion
  is_discontinued : Bool := false
  replaced_by : Option String := none
  advisories_updated : Option String := none

/-- `UploadResult` dataclass. -/
structure UploadResult where
  success : Bool
  message : String
  finalize_url : Option String := none

/-- The repository's error outcomes.  `packageNotFound` is
`PackageNotFoundError` (imported from the exceptions module),
`genericError` is a plain `raise Exception(...)`, and `keyError` is an
uncaught `KeyError` escaping `get_package`'s loop. -/
inductive PkgError where
  | packageNotFound (msg : String)
  | genericError (msg : String)
  | keyError (msg : String)

/-- The identifying fields of the `ArtifactRegistryService` used for URL
synthesis. -/
structure ServiceConfig where
  project_id : String
  location : String
  repository : String

/-- One element of the list returned by
`ArtifactRegistryService.list_package_versions`: a dict whose `version`
key is modelled as optional because `get_package` reads it with a raw
`["version"]` access (a `none` models a dict missing the key). -/
structure VersionData where
  version : Option String
  create_time : Option String
  update_time : Option String

/-! ### Repository layer
(`src/data/repositories/artifact_repository_dart_wrapper_repository.py`)

`get_package` takes the outcome of
`artifact_service.list_package_versions` (which either raises or returns
a list) and a `fetcher` standing for
`artifact_service.download_package_file` (which either raises or returns
optional bytes). -/

/-- `PackageRepository._parse_datetime` (see module docstring for how
`datetime.fromisoformat` is abstracted): falsy input (`None` or `""`)
gives `None`, otherwise the timestamp itself. -/
def parse_datetime : Option String → Option String
  | none => none
  | some s => if s == "" then none else some s

/-- `PackageRepository._get_download_url`: pure string templating. -/
def get_download_url (cfg : ServiceConfig) (package_name version : String) : String :=
  s!"https://artifactregistry.googleapis.com/download/v1/projects/{cfg.project_id}/locations/{cfg.location}/repositories/{cfg.repository}/packages/{package_name}/versions/{version}/files/package.tar.gz"

/-- `PackageRepository._get_package_metadata`: download the archive
(`none` on a raised store error, mirroring the catch-all `except`),
return `None` for missing or empty bytes (`if not package_data`),
otherwise extract the pubspec and hash the bytes. -/
def get_package_metadata (fetcher : String → String → Except String (Option ByteData))
    (package_name version : String) : Option PackageMetadata :=
  match fetcher package_name version with
  | Except.error _ => none
  | Except.ok none => none
  | Except.ok (some b) =>
    if b.raw.isEmpty then none
    else some ⟨extract_pubspec_from_archive b, calculate_sha256 b.raw, b.raw.length⟩

/-- Sort key of `versions_data.sort(key=lambda x: x.get("create_time") or "",
reverse=True)`: the raw timestamp string with `None` and `""` both
mapped to `""` by Python's `or`. -/
def ct_key (vd : VersionData) : String := vd.create_time.getD ""

/-- Code-point lexicographic `≤` on character lists — Python's string
comparison, executable in the kernel. -/
def lex_le : List Char → List Char → Bool
  | [], _ => true
  | _ :: _, [] => false
  | a :: as, b :: bs =>
    if a.toNat < b.toNat then true
    else if b.toNat < a.toNat then false
    else lex_le as bs

/-- Insert one record into a descending-sorted list, after every record
whose key is strictly greater and before the first whose key is `≤` —
the insertion step of a stable descending sort. -/
def ordered_insert_desc (a : VersionData) : List VersionData → List VersionData
  | [] => [a]
  | b :: l =>
    if lex_le (ct_key b).toList (ct_key a).toList then a :: b :: l
    else b :: ordered_insert_desc a l

/-- `versions_data.sort(key=lambda x: x.get("create_time") or "",
reverse=True)`: Python's stable descending sort, modelled as a stable
insertion sort on the same key. -/
def sort_by_create_time_desc : List VersionData → List VersionData
  | [] => []
  | a :: l => ordered_insert_desc a (sort_by_create_time_desc l)

/-- The record `get_package`'s loop body constructs for one raw version
entry (with the `metadata if metadata else` defaults for a failed
fetch). -/
def convert_version_data (cfg : ServiceConfig)
    (fetcher : String → String → Except String (Option ByteData))
    (package_name : String) (vd : VersionData) : PackageVersion :=
  let v := vd.version.getD ""
  let md := get_package_metadata fetcher package_name v
  { name := package_name
    version := v
    create_time := parse_datetime vd.create_time
    update_time := parse_datetime vd.update_time
    archive_url := some (get_download_url cfg package_name v)
    archive_sha256 := some (match md with | some m => m.archive_sha256 | none => "")
    pubspec := some (match md with | some m => m.pubspec | none => Yaml.map [])
    retracted := false }

/-- The `for version_data in versions_data:` loop of `get_package`.  A
dict missing the `version` key raises `KeyError` in the loop body; the
`except` handler's own log line `f"Error processing version
{version_data['version']}: ..."` then re-raises that `KeyError`
uncaught, aborting the whole call — so the `continue` path never runs
(every callee in the body catches its own exceptions). -/
def build_versions (cfg : ServiceConfig)
    (fetcher : String → String → Except String (Option ByteData))
    (package_name : String) : List VersionData → Except PkgError (List PackageVersion)
  | [] => Except.ok []
  | vd :: rest =>
    match vd.version with
    | none => Except.error (PkgError.keyError "version")
    | some _ =>
      match build_versions cfg fetcher package_name rest with
      | Except.ok l => Except.ok (convert_version_data cfg fetcher package_name vd :: l)
      | Except.error e => Except.error e

/-- Python `needle in hay` substring test, on character lists. -/
def contains_sub : List Char → List Char → Bool
  | [], needle => needle.isEmpty
  | h :: t, needle => needle.isPrefixOf (h :: t) || contains_sub t needle

/-- Python `needle in hay` on strings (`"404" in str(e)`). -/
def py_in (needle hay : String) : Bool := contains_sub hay.toList needle.toList

/-- `PackageRepository.get_package`.  `store_result` is the outcome of
`artifact_service.list_package_versions(package_name)`; a raised store
error whose text contains `"404"` becomes `PackageNotFoundError`, any
other raise becomes a wrapped plain `Exception`; an empty list raises
`PackageNotFoundError`; otherwise the list is sorted newest-first and
converted, and an empty surviving list would raise the plain
`Exception("No valid versions found ...")`, else `latest` is
`versions[0]`. -/
def get_package (cfg : ServiceConfig) (package_name : String)
    (store_result : Except String (List VersionData))
    (fetcher : String → String → Except String (Option ByteData)) :
    Except PkgError Package :=
  match store_result with
  | Except.error e =>
    if py_in "404" e then
      Except.error (PkgError.packageNotFound s!"Package {package_name} not found")
    else
      Except.error (PkgError.genericError s!"Failed to retrieve package {package_name}: {e}")
  | Except.ok versions_data =>
    if versions_data.isEmpty then
      Except.error (PkgError.packageNotFound s!"Package {package_name} not found")
    else
      match build_versions cfg fetcher package_name (sort_by_create_time_desc versions_data) with
      | Except.error e => Except.error e
      | Except.ok [] =>
        Except.error (PkgError.genericError s!"No valid versions found for package {package_name}")
      | Except.ok (v0 :: rest) =>
        Except.ok { name := package_name, latest := v0, versions := v0 :: rest }

/-- `PackageRepository.upload_package`.  `store` stands for
`artifact_service.upload_package` (raises or succeeds).  Extraction
failures and missing fields return distinct failure messages; a raise
anywhere in the body is caught by the outer handler into an
`Upload failed: ...` result — including the `AttributeError` from
calling `.get` on a truthy non-mapping document. -/
def upload_package (base_url : String)
    (store : ByteData → String → String → Except String Unit)
    (package_data : ByteData) : UploadResult :=
  let pubspec := extract_pubspec_from_archive package_data
  if !yaml_truthy pubspec then
    { success := false, message := "Could not extract pubspec.yaml from archive" }
  else
    match pubspec with
    | Yaml.map entries =>
      let nm := dict_get entries "name"
      let ver := dict_get entries "version"
      if !opt_truthy nm || !opt_truthy ver then
        { success := false, message := "Missing name or version in pubspec.yaml" }
      else
        let nameStr := py_str (nm.getD Yaml.null)
        let verStr := py_str (ver.getD Yaml.null)
        match store package_data nameStr verStr with
        | Except.ok _ =>
          { success := true
            message := s!"Package {nameStr} version {verStr} uploaded successfully"
            finalize_url := some s!"{base_url}/finalize/{nameStr}/{verStr}" }
        | Except.error e =>
          { success := false, message := s!"Upload failed: {e}" }
    | _ =>
      { success := false, message := "Upload failed: object has no attribute get" }

/-! ### HTTP layer (`src/api/api.py`) -/

/-- Status code and error code of `GET /api/packages/{name}`
(`list_package_versions` in `api.py`): success is 200; the
`except PackageNotFoundError` handler returns 404 with code
`not_found`; every other escaping exception yields a 500 (whether via
the `except PackageRepositoryError` handler or Flask's default handler
— the exceptions module distinguishing them is not under `src/`, and
both give a 500 server error). -/
def list_versions_route : Except PkgError Package → Nat × String
  | Except.ok _ => (200, "ok")
  | Except.error (PkgError.packageNotFound _) => (404, "not_found")
  | Except.error (PkgError.genericError _) => (500, "server_error")
  | Except.error (PkgError.keyError _) => (500, "server_error")

/-- Status code of `POST /upload` (`upload_package` in `api.py`): 204 on
a successful result, otherwise 500 with code `upload_failed` — every
failed `UploadResult` takes the same 500 branch. -/
def upload_route_status (result : UploadResult) : Nat :=
  if result.success then 204 else 500

/-- `p.versions.length` of a successful `get_package` outcome, `none`
for a raised error. -/
def result_version_count : Except PkgError Package → Option Nat
  | Except.ok p => some p.versions.length
  | Except.error _ => none

/-! ### Derived keys and concrete fixtures -/

/-- Descending order on raw entries, by the sort key. -/
def vd_ge (x y : VersionData) : Prop :=
  lex_le (ct_key y).toList (ct_key x).toList = true

/-- Creation-timestamp key of an assembled record. -/
def pv_key (r : PackageVersion) : String := r.create_time.getD ""

/-- A fixed service configuration for concrete runs. -/
def cfg0 : ServiceConfig := ⟨"proj", "loc", "repo"⟩

/-- A well-formed archive: three bytes whose tar view holds one
parsable pubspec. -/
def good_bytes : ByteData :=
  ⟨[1, 2, 3], ArchiveData.entries
    [⟨"pkg/pubspec.yaml", some (ContentParse.parsed
      (Yaml.map [("name", Yaml.str "pkg"), ("version", Yaml.str "2.0.0")]))⟩]⟩

/-- A fetcher whose every download succeeds. -/
def fetch_ok : String → String → Except String (Option ByteData) :=
  fun _ _ => Except.ok (some good_bytes)

/-- A fetcher whose every download raises. -/
def fetch_fail : String → String → Except String (Option ByteData) :=
  fun _ _ => Except.error "connection reset"

/-- A fetcher raising exactly on version `1.0.0`. -/
def fetch_one_fail : String → String → Except String (Option ByteData) :=
  fun _ v => if v == "1.0.0" then Except.error "500 internal" else Except.ok (some good_bytes)

/-- Raw entry: version `1.0.0`, the older timestamp. -/
def vd_t1 : VersionData := ⟨some "1.0.0", some "2024-01-01T10:00:00Z", none⟩

/-- Raw entry: version `2.0.0`, the newer timestamp. -/
def vd_t2 : VersionData := ⟨some "2.0.0", some "2024-02-01T10:00:00Z", none⟩

/-- An archive with no members at all. -/
def b_empty : ByteData := ⟨[], ArchiveData.entries []⟩

/-- An archive whose pubspec lacks both `name` and `version`. -/
def b_nofields : ByteData :=
  ⟨[9], ArchiveData.entries
    [⟨"pubspec.yaml", some (ContentParse.parsed (Yaml.map [("description", Yaml.str "d")]))⟩]⟩

/-- An archive whose pubspec file parses to the empty document. -/
def b_nullspec : ByteData :=
  ⟨[], ArchiveData.entries [⟨"pubspec.yaml", some (ContentParse.parsed Yaml.null)⟩]⟩

/-- A store upload that always succeeds. -/
def store_ok : ByteData → String → String → Except String Unit :=
  fun _ _ _ => Except.ok ()

/-- The package `get_package` assembles from `[vd_t1]` when every fetch
raises. -/
def pkg0 : Package :=
  { name := "pkg"
    latest := convert_version_data cfg0 fetch_fail "pkg" vd_t1
    versions := [convert_version_data cfg0 fetch_fail "pkg" vd_t1] }

/-! ### Order and sort lemmas -/

/-- `lex_le` is reflexive. -/
theorem lex_le_refl : ∀ l : List Char, lex_le l l = true := by
  intro l
  induction l with
  | nil => rfl
  | cons a as ih => simp [lex_le, ih]

/-- `lex_le` is total. -/
theorem lex_le_total : ∀ a b : List Char, lex_le a b = true ∨ lex_le b a = true := by
  intro a
  induction a with
  | nil => intro b; left; rfl
  | cons x xs ih =>
    intro b
    cases b with
    | nil => right; rfl
    | cons y ys =>
      by_cases hxy : x.toNat < y.toNat
      · left; simp [lex_le, hxy]
      · by_cases hyx : y.toNat < x.toNat
        · right; simp [lex_le, hyx]
        · rcases ih ys with h | h
          · left; simp [lex_le, hxy, hyx, h]
          · right; simp [lex_le, hxy, hyx, h]

/-- `lex_le` is transitive. -/
theorem lex_le_trans :
    ∀ a b c : List Char, lex_le a b = true → lex_le b c = true → lex_le a c = true := by
  intro a
  induction a with
  | nil => intro b c _ _; rfl
  | cons x xs ih =>
    intro b c hab hbc
    cases b with
    | nil => simp [lex_le] at hab
    | cons y ys =>
      cases c with
      | nil => simp [lex_le] at hbc
      | cons z zs =>
        simp only [lex_le] at hab hbc ⊢
        by_cases hxy : x.toNat < y.toNat
        · by_cases hyz : y.toNat < z.toNat
          · simp [show x.toNat < z.toNat from hxy.trans hyz]
          · by_cases hzy : z.toNat < y.toNat
            · simp [hyz, hzy] at hbc
            · have : y.toNat = z.toNat := le_antisymm (le_of_not_lt hzy) (le_of_not_lt hyz)
              simp [show x.toNat < z.toNat from this ▸ hxy]
        · by_cases hyx : y.toNat < x.toNat
          · simp [hxy, hyx] at hab
          · have hxeqy : x.toNat = y.toNat := le_antisymm (le_of_not_lt hyx) (le_of_not_lt hxy)
            simp only [hxy, hyx, if_false, if_neg (lt_irrefl _)] at hab
            by_cases hyz : y.toNat < z.toNat
            · simp [hxeqy ▸ hyz]
            · by_cases hzy : z.toNat < y.toNat
              · simp [hyz, hzy] at hbc
              · simp only [hyz, hzy, if_false] at hbc
                simp [hxeqy ▸ hyz, hxeqy ▸ hzy, ih ys zs (by simpa using hab) (by simpa using hbc)]

/-- The empty list is the bottom of `lex_le`. -/
theorem lex_le_nil_right : ∀ a : List Char, lex_le a [] = true → a = [] := by
  intro a h
  cases a with
  | nil => rfl
  | cons x xs => simp [lex_le] at h

/-- A string whose character list is empty is the empty string. -/
theorem string_toList_eq_nil {s : String} (h : s.toList = []) : s = "" := by
  cases s with
  | mk data => cases data with
    | nil => rfl
    | cons c cs => simp [String.toList] at h

/-- Membership in an insertion step. -/
theorem mem_ordered_insert_desc {x a : VersionData} :
    ∀ l : List VersionData, x ∈ ordered_insert_desc a l ↔ x = a ∨ x ∈ l := by
  intro l
  induction l with
  | nil => simp [ordered_insert_desc]
  | cons b t ih =>
    by_cases h : lex_le (ct_key b).toList (ct_key a).toList = true
    · simp only [ordered_insert_desc, if_pos h, List.mem_cons]
    · simp only [ordered_insert_desc, if_neg h, List.mem_cons, ih]
      tauto

/-- An insertion step adds one element. -/
theorem length_ordered_insert_desc (a : VersionData) :
    ∀ l : List VersionData, (ordered_insert_desc a l).length = l.length + 1 := by
  intro l
  induction l with
  | nil => rfl
  | cons b t ih =>
    by_cases h : lex_le (ct_key b).toList (ct_key a).toList = true
    · simp only [ordered_insert_desc, if_pos h, List.length_cons]
    · simp only [ordered_insert_desc, if_neg h, List.length_cons, ih]

/-- The modelled sort preserves length. -/
theorem length_sort_by_create_time_desc :
    ∀ l : List VersionData, (sort_by_create_time_desc l).length = l.length := by
  intro l
  induction l with
  | nil => rfl
  | cons a t ih => simp [sort_by_create_time_desc, length_ordered_insert_desc, ih]

/-- The modelled sort preserves membership. -/
theorem mem_sort_by_create_time_desc {x : VersionData} :
    ∀ l : List VersionData, x ∈ sort_by_create_time_desc l ↔ x ∈ l := by
  intro l
  induction l with
  | nil => simp [sort_by_create_time_desc]
  | cons a t ih => simp [sort_by_create_time_desc, mem_ordered_insert_desc, ih]

/-- Inserting preserves descending sortedness. -/
theorem sorted_ordered_insert_desc (a : VersionData) :
    ∀ l : List VersionData, List.Pairwise vd_ge l →
      List.Pairwise vd_ge (ordered_insert_desc a l) := by
  intro l
  induction l with
  | nil => intro _; simp [ordered_insert_desc, List.pairwise_singleton]
  | cons b t ih =>
    intro hp
    rcases List.pairwise_cons.mp hp with ⟨hb, ht⟩
    by_cases h : lex_le (ct_key b).toList (ct_key a).toList = true
    · simp only [ordered_insert_desc, if_pos h]
      refine List.pairwise_cons.mpr ⟨?_, hp⟩
      intro y hy
      rcases List.mem_cons.mp hy with rfl | hyt
      · exact h
      · exact lex_le_trans _ _ _ (hb y hyt) h
    · simp only [ordered_insert_desc, if_neg h]
      refine List.pairwise_cons.mpr ⟨?_, ih ht⟩
      intro y hy
      rcases (mem_ordered_insert_desc _).mp hy with rfl | hyt
      · rcases lex_le_total (ct_key y).toList (ct_key b).toList with hh | hh
        · exact hh
        · exact absurd hh h
      · exact hb y hyt

/-- The modelled sort produces a descending-sorted list. -/
theorem sorted_sort_by_create_time_desc :
    ∀ l : List VersionData, List.Pairwise vd_ge (sort_by_create_time_desc l) := by
  intro l
  induction l with
  | nil => simp [sort_by_create_time_desc]
  | cons a t ih => exact sorted_ordered_insert_desc a _ ih

/-- Filtering one key class through an insertion step: the inserted
record lands in front of its own class and no other class moves. -/
theorem filter_ordered_insert_desc (k : String) (a : VersionData) :
    ∀ l : List VersionData,
      (ordered_insert_desc a l).filter (fun x => ct_key x == k) =
        if ct_key a == k then a :: l.filter (fun x => ct_key x == k)
        else l.filter (fun x => ct_key x == k) := by
  intro l
  induction l with
  | nil =>
    by_cases ha : ct_key a == k
    · simp [ordered_insert_desc, List.filter, ha]
    · simp [ordered_insert_desc, List.filter, ha]
  | cons b t ih =>
    by_cases h : lex_le (ct_key b).toList (ct_key a).toList = true
    · simp only [ordered_insert_desc, if_pos h]
      by_cases ha : ct_key a == k
      · simp [List.filter, ha]
      · simp [List.filter, ha]
    · simp only [ordered_insert_desc, if_neg h]
      by_cases ha : ct_key a == k
      · by_cases hb : ct_key b == k
        · exfalso
          have hak : ct_key a = k := by simpa using ha
          have hbk : ct_key b = k := by simpa using hb
          have : ct_key b = ct_key a := by rw [hak, hbk]
          exact h (this ▸ lex_le_refl (ct_key b).toList)
        · simp [List.filter, hb, ih, ha]
      · by_cases hb : ct_key b == k
        · simp [List.filter, hb, ih, ha]
        · simp [List.filter, hb, ih, ha]

/-- Stability of the modelled sort: each key class keeps its original
relative order. -/
theorem filter_sort_by_create_time_desc (k : String) :
    ∀ l : List VersionData,
      (sort_by_create_time_desc l).filter (fun x => ct_key x == k) =
        l.filter (fun x => ct_key x == k) := by
  intro l
  induction l with
  | nil => rfl
  | cons a t ih =>
    by_cases ha : ct_key a == k
    · simp [sort_by_create_time_desc, filter_ordered_insert_desc, ha, ih, List.filter]
    · simp [sort_by_create_time_desc, filter_ordered_insert_desc, ha, ih, List.filter]

/-! ### Record construction lemmas -/

/-- The record built from a raw entry carries the entry's sort key. -/
theorem pv_key_convert (cfg : ServiceConfig)
    (fetcher : String → String → Except String (Option ByteData))
    (package_name : String) (vd : VersionData) :
    pv_key (convert_version_data cfg fetcher package_name vd) = ct_key vd := by
  cases h : vd.create_time with
  | none => simp [pv_key, convert_version_data, parse_datetime, ct_key, h]
  | some s =>
    by_cases hs : s == ""
    · have : s = "" := by simpa using hs
      simp [pv_key, convert_version_data, parse_datetime, ct_key, h, this]
    · simp [pv_key, convert_version_data, parse_datetime, ct_key, h, hs]

/-- `parse_datetime` never produces an empty-string timestamp, so no
assembled record carries one. -/
theorem convert_create_time_ne_empty (cfg : ServiceConfig)
    (fetcher : String → String → Except String (Option ByteData))
    (package_name : String) (vd : VersionData) :
    (convert_version_data cfg fetcher package_name vd).create_time ≠ some "" := by
  cases h : vd.create_time with
  | none => simp [convert_version_data, parse_datetime, h]
  | some s =>
    by_cases hs : s == ""
    · simp [convert_version_data, parse_datetime, h, hs]
    · have : ¬ s = "" := by simpa using hs
      simp [convert_version_data, parse_datetime, h, hs, this]

/-- When every raw entry has its `version` key, the conversion loop
raises nothing and returns the converted records in input order. -/
theorem build_versions_eq_map (cfg : ServiceConfig)
    (fetcher : String → String → Except String (Option ByteData))
    (package_name : String) :
    ∀ l : List VersionData, (∀ vd ∈ l, vd.version.isSome) →
      build_versions cfg fetcher package_name l =
        Except.ok (l.map (convert_version_data cfg fetcher package_name)) := by
  intro l
  induction l with
  | nil => intro _; rfl
  | cons vd rest ih =>
    intro hv
    have hvd : vd.version.isSome := hv vd (List.mem_cons_self vd rest)
    rcases Option.isSome_iff_exists.mp hvd with ⟨v, hveq⟩
    have hrest := ih (fun x hx => hv x (List.mem_cons_of_mem vd hx))
    simp [build_versions, hveq, hrest]

/-- The success shape of `get_package` on a non-empty identifier list
whose entries all carry `version` keys: it returns a package whose
`versions` are the sorted entries converted, with `latest` the head. -/
theorem get_package_ok (cfg : ServiceConfig) (package_name : String)
    (fetcher : String → String → Except String (Option ByteData))
    (l : List VersionData) (hne : l ≠ [])
    (hv : ∀ vd ∈ l, vd.version.isSome) :
    ∃ p : Package,
      get_package cfg package_name (Except.ok l) fetcher = Except.ok p ∧
      p.versions =
        (sort_by_create_time_desc l).map (convert_version_data cfg fetcher package_name) ∧
      p.versions ≠ [] ∧ p.versions.head? = some p.latest := by
  have hes : l.isEmpty = false := by
    cases l with
    | nil => exact absurd rfl hne
    | cons a t => rfl
  have hv' : ∀ vd ∈ sort_by_create_time_desc l, vd.version.isSome := fun vd h =>
    hv vd ((mem_sort_by_create_time_desc l).mp h)
  have hb := build_versions_eq_map cfg fetcher package_name _ hv'
  have hlen : ((sort_by_create_time_desc l).map
      (convert_version_data cfg fetcher package_name)).length = l.length := by
    simp [List.length_map, length_sort_by_create_time_desc]
  cases hm : (sort_by_create_time_desc l).map (convert_version_data cfg fetcher package_name) with
  | nil =>
    exfalso
    rw [hm] at hlen
    cases l with
    | nil => exact absurd rfl hne
    | cons a t => simp at hlen
  | cons v0 rest =>
    refine ⟨{ name := package_name, latest := v0, versions := v0 :: rest }, ?_, ?_, ?_, ?_⟩
    · rw [hm] at hb
      simp [get_package, hes, hb]
    · simp [hm]
    · simp
    · simp

/-! ### Digest lemmas -/

/-- Sanity check of the SHA-256 implementation against the standard
test vector for the empty message. -/
theorem sha256_empty_test_vector :
    calculate_sha256 [] =
      "e3b0c44298fc1c149afbf4c8996fb92427ae41e4649b934ca495991b7852b855" := by
  decide

/-- Unfolding `String.mk` to its character list. -/
theorem string_toList_mk (l : List Char) : (String.mk l).toList = l := rfl

/-- Every nibble's hex digit is one of the sixteen lowercase hex
characters. -/
theorem hexDigit_mem_of_lt : ∀ n : Nat, n < 16 → hexDigit n ∈ ("0123456789abcdef").toList := by
  intro n h
  interval_cases n <;> decide

/-! ### Claim theorems -/

/-- C8: for every byte sequence the digest function is deterministic,
is the SHA-256 of the exact raw bytes (by definition of
`calculate_sha256`, checked against the standard test vector above),
and yields a string of exactly 64 lowercase hexadecimal characters. -/
theorem c8_digest_deterministic_hex (data : List Nat) :
    calculate_sha256 data = calculate_sha256 data ∧
    (calculate_sha256 data).length = 64 ∧
    ∀ c ∈ (calculate_sha256 data).toList, c ∈ ("0123456789abcdef").toList := by
  refine ⟨rfl, ?_, ?_⟩
  · simp [calculate_sha256, String.length_mk, word_to_hex]
  · intro c hc
    have hmem : ∀ w : Nat, c ∈ word_to_hex w → c ∈ ("0123456789abcdef").toList := by
      intro w hw
      simp only [word_to_hex, List.mem_map, List.mem_range] at hw
      obtain ⟨k, -, rfl⟩ := hw
      exact hexDigit_mem_of_lt _ (Nat.mod_lt _ (by norm_num))
    simp only [calculate_sha256, string_toList_mk, List.mem_append] at hc
    rcases hc with (((((((h | h) | h) | h) | h) | h) | h) | h) <;> exact hmem _ h

/-- C5: every `Package` that `get_package` returns has a non-empty
`versions` list whose head is `latest`; when the conversion loop yields
no record, resolution raises instead of returning a degenerate
package. -/
theorem c5_package_invariant (cfg : ServiceConfig) (package_name : String)
    (store_result : Except String (List VersionData))
    (fetcher : String → String → Except String (Option ByteData)) (p : Package)
    (h : get_package cfg package_name store_result fetcher = Except.ok p) :
    p.versions ≠ [] ∧ p.versions.head? = some p.latest := by
  rcases store_result with e | l
  · simp only [get_package] at h
    split at h <;> exact absurd h (by simp)
  · simp only [get_package] at h
    split at h
    · exact absurd h (by simp)
    · split at h
      · exact absurd h (by simp)
      · exact absurd h (by simp)
      · rw [Except.ok.injEq] at h
        subst h
        simp

/-- C5 witness: a concrete run returning a one-version package. -/
theorem c5_package_invariant_witness :
    get_package cfg0 "pkg" (Except.ok [vd_t1]) fetch_fail = Except.ok pkg0 ∧
    (pkg0.versions ≠ [] ∧ pkg0.versions.head? = some pkg0.latest) :=
  ⟨rfl, c5_package_invariant cfg0 "pkg" (Except.ok [vd_t1]) fetch_fail pkg0 rfl⟩

/-- C6: a store answer with zero raw version identifiers makes
`get_package` raise `PackageNotFoundError`, which the route maps to a
404 response with error code `not_found`. -/
theorem c6_empty_identifier_list_not_found (cfg : ServiceConfig) (package_name : String)
    (fetcher : String → String → Except String (Option ByteData)) :
    get_package cfg package_name (Except.ok []) fetcher =
      Except.error (PkgError.packageNotFound s!"Package {package_name} not found") ∧
    list_versions_route
      (Except.error (PkgError.packageNotFound s!"Package {package_name} not found")) =
      (404, "not_found") :=
  ⟨rfl, rfl⟩

/-- C9: an exception from the store's version listing becomes
`PackageNotFoundError` (hence 404) exactly when its text contains the
substring `404`; any other text is re-wrapped in a plain `Exception`
and surfaces as a 500. -/
theorem c9_listing_error_404_substring (cfg : ServiceConfig) (package_name msg : String)
    (fetcher : String → String → Except String (Option ByteData)) :
    (py_in "404" msg = true →
      get_package cfg package_name (Except.error msg) fetcher =
        Except.error (PkgError.packageNotFound s!"Package {package_name} not found") ∧
      list_versions_route (get_package cfg package_name (Except.error msg) fetcher) =
        (404, "not_found")) ∧
    (py_in "404" msg = false →
      get_package cfg package_name (Except.error msg) fetcher =
        Except.error (PkgError.genericError
          s!"Failed to retrieve package {package_name}: {msg}") ∧
      (list_versions_route (get_package cfg package_name (Except.error msg) fetcher)).1 =
        500) := by
  constructor
  · intro h
    constructor
    · simp [get_package, h]
    · simp [get_package, h, list_versions_route]
  · intro h
    constructor
    · simp [get_package, h]
    · simp [get_package, h, list_versions_route]

/-- C9 witness: a transient error mentioning 404 is classified
not-found; a persistent failure without 404 in its text is a 500. -/
theorem c9_listing_error_404_substring_witness :
    (py_in "404" "transient glitch, upstream said 404, retry later" = true) ∧
    get_package cfg0 "pkg" (Except.error "transient glitch, upstream said 404, retry later")
      fetch_ok = Except.error (PkgError.packageNotFound "Package pkg not found") ∧
    (py_in "404" "permission denied listing package" = false) ∧
    get_package cfg0 "pkg" (Except.error "permission denied listing package") fetch_ok =
      Except.error (PkgError.genericError
        "Failed to retrieve package pkg: permission denied listing package") ∧
    (list_versions_route (get_package cfg0 "pkg"
      (Except.error "permission denied listing package") fetch_ok)).1 = 500 :=
  ⟨by decide,
   ((c9_listing_error_404_substring cfg0 "pkg"
      "transient glitch, upstream said 404, retry later" fetch_ok).1 (by decide)).1,
   by decide,
   ((c9_listing_error_404_substring cfg0 "pkg"
      "permission denied listing package" fetch_ok).2 (by decide)).1,
   ((c9_listing_error_404_substring cfg0 "pkg"
      "permission denied listing package" fetch_ok).2 (by decide)).2⟩

/-- Members that do not match the manifest name are skipped by the
extraction loop. -/
theorem find_pubspec_append_no_match :
    ∀ pre rest : List TarMember,
      (∀ m ∈ pre, str_ends_with m.name "pubspec.yaml" = false) →
      find_pubspec (pre ++ rest) = find_pubspec rest := by
  intro pre
  induction pre with
  | nil => intro rest _; rfl
  | cons m t ih =>
    intro rest hall
    have hm : str_ends_with m.name "pubspec.yaml" = false := hall m (List.mem_cons_self m t)
    simp only [List.cons_append, find_pubspec, hm, Bool.false_eq_true, if_false]
    exact ih rest (fun x hx => hall x (List.mem_cons_of_mem m hx))

/-- C7: `extractManifest` never raises; it yields the empty mapping when
the container is not a gzip tar, when no member path ends with
`pubspec.yaml`, or when the first matching readable member fails to
parse; and when that member parses to a mapping, it returns exactly that
mapping. -/
theorem c7_extract_manifest_degrades_to_empty :
    (∀ raw : List Nat,
      extract_pubspec_from_archive ⟨raw, ArchiveData.notATarGz⟩ = Yaml.map []) ∧
    (∀ (raw : List Nat) (ms : List TarMember),
      (∀ m ∈ ms, str_ends_with m.name "pubspec.yaml" = false) →
      extract_pubspec_from_archive ⟨raw, ArchiveData.entries ms⟩ = Yaml.map []) ∧
    (∀ (raw : List Nat) (pre : List TarMember) (nm : String) (rest : List TarMember),
      (∀ m ∈ pre, str_ends_with m.name "pubspec.yaml" = false) →
      str_ends_with nm "pubspec.yaml" = true →
      extract_pubspec_from_archive
        ⟨raw, ArchiveData.entries (pre ++ ⟨nm, some ContentParse.parseFail⟩ :: rest)⟩ =
        Yaml.map []) ∧
    (∀ (raw : List Nat) (pre : List TarMember) (nm : String)
        (entries : List (String × Yaml)) (rest : List TarMember),
      (∀ m ∈ pre, str_ends_with m.name "pubspec.yaml" = false) →
      str_ends_with nm "pubspec.yaml" = true →
      extract_pubspec_from_archive
        ⟨raw, ArchiveData.entries
          (pre ++ ⟨nm, some (ContentParse.parsed (Yaml.map entries))⟩ :: rest)⟩ =
        Yaml.map entries) := by
  refine ⟨fun raw => rfl, ?_, ?_, ?_⟩
  · intro raw ms h
    show find_pubspec ms = Yaml.map []
    have := find_pubspec_append_no_match ms [] h
    rwa [List.append_nil] at this
  · intro raw pre nm rest hpre hnm
    show find_pubspec (pre ++ ⟨nm, some ContentParse.parseFail⟩ :: rest) = Yaml.map []
    rw [find_pubspec_append_no_match pre _ hpre]
    simp [find_pubspec, hnm]
  · intro raw pre nm entries rest hpre hnm
    show find_pubspec
        (pre ++ ⟨nm, some (ContentParse.parsed (Yaml.map entries))⟩ :: rest) = Yaml.map entries
    rw [find_pubspec_append_no_match pre _ hpre]
    simp [find_pubspec, hnm]

/-- C7 witness: the four behaviours on concrete archives — an invalid
container, an archive without a manifest, a manifest that fails to
parse, and a well-formed manifest behind a non-matching member. -/
theorem c7_extract_manifest_degrades_to_empty_witness :
    extract_pubspec_from_archive ⟨[0], ArchiveData.notATarGz⟩ = Yaml.map [] ∧
    extract_pubspec_from_archive ⟨[0], ArchiveData.entries [⟨"README.md", none⟩]⟩ =
      Yaml.map [] ∧
    extract_pubspec_from_archive
      ⟨[0], ArchiveData.entries
        (⟨"a.txt", none⟩ :: ⟨"p/pubspec.yaml", some ContentParse.parseFail⟩ :: [])⟩ =
      Yaml.map [] ∧
    extract_pubspec_from_archive
      ⟨[0], ArchiveData.entries
        (⟨"a.txt", none⟩ ::
          ⟨"p/pubspec.yaml", some (ContentParse.parsed (Yaml.map [("name", Yaml.str "foo")]))⟩ ::
          [])⟩ =
      Yaml.map [("name", Yaml.str "foo")] :=
  ⟨c7_extract_manifest_degrades_to_empty.1 [0],
   c7_extract_manifest_degrades_to_empty.2.1 [0] [⟨"README.md", none⟩] (by decide),
   c7_extract_manifest_degrades_to_empty.2.2.1 [0] [⟨"a.txt", none⟩] "p/pubspec.yaml" []
     (by decide) (by decide),
   c7_extract_manifest_degrades_to_empty.2.2.2 [0] [⟨"a.txt", none⟩] "p/pubspec.yaml"
     [("name", Yaml.str "foo")] [] (by decide) (by decide)⟩

/-- C10: an archive whose manifest file parses to a falsy non-mapping
document (such as the empty document, giving `null`) makes
`extractManifest` return that parser result unchanged, upload validation
then reports the no-manifest message, and the outcome is identical to
that of an archive with no manifest file at all. -/
theorem c10_empty_manifest_indistinguishable (base_url : String)
    (store : ByteData → String → String → Except String Unit)
    (raw : List Nat) (nm : String) (rest : List TarMember) (y : Yaml)
    (hnm : str_ends_with nm "pubspec.yaml" = true)
    (hfalsy : yaml_truthy y = false)
    (_hnonmap : ∀ entries, y ≠ Yaml.map entries) :
    extract_pubspec_from_archive
      ⟨raw, ArchiveData.entries (⟨nm, some (ContentParse.parsed y)⟩ :: rest)⟩ = y ∧
    upload_package base_url store
      ⟨raw, ArchiveData.entries (⟨nm, some (ContentParse.parsed y)⟩ :: rest)⟩ =
      ⟨false, "Could not extract pubspec.yaml from archive", none⟩ ∧
    (∀ b2 : ByteData, extract_pubspec_from_archive b2 = Yaml.map [] →
      upload_package base_url store b2 =
        upload_package base_url store
          ⟨raw, ArchiveData.entries (⟨nm, some (ContentParse.parsed y)⟩ :: rest)⟩) := by
  have hext : extract_pubspec_from_archive
      ⟨raw, ArchiveData.entries (⟨nm, some (ContentParse.parsed y)⟩ :: rest)⟩ = y := by
    simp [extract_pubspec_from_archive, find_pubspec, hnm]
  refine ⟨hext, ?_, ?_⟩
  · simp [upload_package, hext, hfalsy]
  · intro b2 h2
    have hmap : yaml_truthy (Yaml.map []) = false := rfl
    simp [upload_package, hext, h2, hfalsy, hmap]

/-- C10 witness: a manifest parsing to the empty document behaves like a
missing manifest on a concrete upload. -/
theorem c10_empty_manifest_indistinguishable_witness :
    extract_pubspec_from_archive b_nullspec = Yaml.null ∧
    upload_package "http://h" store_ok b_nullspec =
      ⟨false, "Could not extract pubspec.yaml from archive", none⟩ ∧
    upload_package "http://h" store_ok b_empty =
      upload_package "http://h" store_ok b_nullspec :=
  ⟨(c10_empty_manifest_indistinguishable "http://h" store_ok [] "pubspec.yaml" [] Yaml.null
      (by decide) rfl (fun entries h => Yaml.noConfusion h)).1,
   (c10_empty_manifest_indistinguishable "http://h" store_ok [] "pubspec.yaml" [] Yaml.null
      (by decide) rfl (fun entries h => Yaml.noConfusion h)).2.1,
   (c10_empty_manifest_indistinguishable "http://h" store_ok [] "pubspec.yaml" [] Yaml.null
      (by decide) rfl (fun entries h => Yaml.noConfusion h)).2.2 b_empty rfl⟩

/-- C1 (amended): a version whose archive fetch or metadata extraction
fails is not skipped — `_get_package_metadata` returns `None` and the
loop still builds its record with an empty digest and empty manifest —
so with every entry bearing a `version` key the returned sequence always
has exactly N records, never N−1. -/
theorem c1_failed_fetch_still_included (cfg : ServiceConfig) (package_name : String)
    (fetcher : String → String → Except String (Option ByteData))
    (l : List VersionData) (hne : l ≠ [])
    (hv : ∀ vd ∈ l, vd.version.isSome) :
    ∃ p : Package,
      get_package cfg package_name (Except.ok l) fetcher = Except.ok p ∧
      p.versions.length = l.length ∧
      ∀ pv ∈ p.versions, get_package_metadata fetcher package_name pv.version = none →
        pv.archive_sha256 = some "" ∧ pv.pubspec = some (Yaml.map []) := by
  obtain ⟨p, hp, hpv, -, -⟩ := get_package_ok cfg package_name fetcher l hne hv
  refine ⟨p, hp, ?_, ?_⟩
  · rw [hpv]
    simp [length_sort_by_create_time_desc]
  · rw [hpv]
    intro pv hmem hmd
    rcases List.mem_map.mp hmem with ⟨vd, -, rfl⟩
    simp only [convert_version_data] at hmd ⊢
    rw [hmd]
    exact ⟨rfl, rfl⟩

/-- C1 witness: two versions, the fetch of `1.0.0` raising — both
records are returned and the failed one carries the defaults. -/
theorem c1_failed_fetch_still_included_witness :
    ∃ p : Package,
      get_package cfg0 "pkg" (Except.ok [vd_t1, vd_t2]) fetch_one_fail = Except.ok p ∧
      p.versions.length = [vd_t1, vd_t2].length ∧
      ∀ pv ∈ p.versions, get_package_metadata fetch_one_fail "pkg" pv.version = none →
        pv.archive_sha256 = some "" ∧ pv.pubspec = some (Yaml.map []) :=
  c1_failed_fetch_still_included cfg0 "pkg" fetch_one_fail [vd_t1, vd_t2]
    (by simp) (by decide)

/-- C1 counterexample: with N = 2 identifiers and exactly one failing
fetch the aggregation returns 2 records, not N − 1 = 1 as claimed. -/
theorem c1_skip_on_failure_counterexample :
    result_version_count (get_package cfg0 "pkg" (Except.ok [vd_t1, vd_t2]) fetch_one_fail) =
      some 2 ∧
    (some 2 : Option Nat) ≠ some 1 := by
  constructor
  · decide
  · decide

/-- C3 (amended): with at least one raw identifier (each bearing a
`version` key) aggregation always succeeds — failed versions are kept as
degraded records, so the zero-survivors guard raising
`Exception("No valid versions found ...")` is unreachable; that error,
were it raised, is a different kind from `PackageNotFoundError` and
surfaces as a 500, not a 404. -/
theorem c3_no_valid_versions_unreachable (cfg : ServiceConfig) (package_name : String)
    (fetcher : String → String → Except String (Option ByteData))
    (l : List VersionData) (hne : l ≠ [])
    (hv : ∀ vd ∈ l, vd.version.isSome) :
    (∃ p : Package,
      get_package cfg package_name (Except.ok l) fetcher = Except.ok p ∧ p.versions ≠ []) ∧
    (∀ m m' : String, PkgError.genericError m ≠ PkgError.packageNotFound m') ∧
    (∀ m : String,
      (list_versions_route (Except.error (PkgError.genericError m))).1 = 500 ∧
      (list_versions_route (Except.error (PkgError.genericError m))).1 ≠ 404) := by
  refine ⟨?_, ?_, ?_⟩
  · obtain ⟨p, hp, -, hne', -⟩ := get_package_ok cfg package_name fetcher l hne hv
    exact ⟨p, hp, hne'⟩
  · intro m m' hcon
    exact PkgError.noConfusion hcon
  · intro m
    refine ⟨rfl, ?_⟩
    intro hcon
    simp [list_versions_route] at hcon

/-- C3 witness: a single identifier whose fetch raises still yields a
successful one-record aggregation. -/
theorem c3_no_valid_versions_unreachable_witness :
    (∃ p : Package,
      get_package cfg0 "pkg" (Except.ok [vd_t1]) fetch_fail = Except.ok p ∧
      p.versions ≠ []) ∧
    (∀ m m' : String, PkgError.genericError m ≠ PkgError.packageNotFound m') ∧
    (∀ m : String,
      (list_versions_route (Except.error (PkgError.genericError m))).1 = 500 ∧
      (list_versions_route (Except.error (PkgError.genericError m))).1 ≠ 404) :=
  c3_no_valid_versions_unreachable cfg0 "pkg" fetch_fail [vd_t1] (by simp) (by decide)

/-- C3 counterexample: one identifier, every fetch failing — the claim
predicts the `NoValidVersions` failure, but the code returns a
one-record package (the count is `some 1`, not the error's `none`). -/
theorem c3_all_fetches_fail_counterexample :
    result_version_count (get_package cfg0 "pkg" (Except.ok [vd_t1]) fetch_fail) = some 1 ∧
    result_version_count (get_package cfg0 "pkg" (Except.ok [vd_t1]) fetch_fail) ≠ none := by
  constructor
  · decide
  · decide

/-- C4 (amended): upload validation distinguishes the no-manifest
failure from the missing-fields failure by message, but `api.py` returns
every failed upload as HTTP 500, not 400. -/
theorem c4_upload_failures_distinguished_but_500 (base_url : String)
    (store : ByteData → String → String → Except String Unit) (b : ByteData) :
    (yaml_truthy (extract_pubspec_from_archive b) = false →
      upload_package base_url store b =
        ⟨false, "Could not extract pubspec.yaml from archive", none⟩ ∧
      upload_route_status (upload_package base_url store b) = 500) ∧
    (∀ entries : List (String × Yaml),
      extract_pubspec_from_archive b = Yaml.map entries →
      yaml_truthy (Yaml.map entries) = true →
      (opt_truthy (dict_get entries "name") = false ∨
        opt_truthy (dict_get entries "version") = false) →
      upload_package base_url store b =
        ⟨false, "Missing name or version in pubspec.yaml", none⟩ ∧
      upload_route_status (upload_package base_url store b) = 500) ∧
    ("Could not extract pubspec.yaml from archive" : String) ≠
      "Missing name or version in pubspec.yaml" := by
  refine ⟨?_, ?_, by decide⟩
  · intro h
    have hres : upload_package base_url store b =
        ⟨false, "Could not extract pubspec.yaml from archive", none⟩ := by
      simp [upload_package, h]
    exact ⟨hres, by rw [hres]; rfl⟩
  · intro entries hext htr hor
    have hres : upload_package base_url store b =
        ⟨false, "Missing name or version in pubspec.yaml", none⟩ := by
      rcases hor with h1 | h1 <;> simp [upload_package, hext, htr, h1]
    exact ⟨hres, by rw [hres]; rfl⟩

/-- C4 witness: a concrete manifest-less archive and a concrete
fields-less manifest produce the two distinct messages, each as 500. -/
theorem c4_upload_failures_distinguished_but_500_witness :
    (upload_package "http://h" store_ok b_empty =
      ⟨false, "Could not extract pubspec.yaml from archive", none⟩ ∧
    upload_route_status (upload_package "http://h" store_ok b_empty) = 500) ∧
    (upload_package "http://h" store_ok b_nofields =
      ⟨false, "Missing name or version in pubspec.yaml", none⟩ ∧
    upload_route_status (upload_package "http://h" store_ok b_nofields) = 500) :=
  ⟨(c4_upload_failures_distinguished_but_500 "http://h" store_ok b_empty).1 rfl,
   (c4_upload_failures_distinguished_but_500 "http://h" store_ok b_nofields).2.1
     [("description", Yaml.str "d")] rfl rfl (Or.inl rfl)⟩

/-- C4 counterexample: the claim says both validation failures surface
as HTTP 400; the upload route returns 500 for them. -/
theorem c4_client_error_counterexample :
    upload_route_status (upload_package "http://h" store_ok b_empty) = 500 ∧
    (500 : Nat) ≠ 400 := by
  constructor
  · rfl
  · decide

/-- C2: on a non-empty identifier list where all per-version processing
succeeds (every entry bears its `version` key — the only abort the loop
has; fetch outcomes never drop records, so the theorem holds under this
weaker hypothesis and the all-succeeding case follows), aggregation
returns the same number of records, in descending creation-timestamp
order (code-point order on the RFC3339 strings), records missing a
creation timestamp after all records that have one (a raw empty-string
timestamp parses to a missing one, so record-level missingness matches
the sort key `x.get("create_time") or ""`), and each timestamp class in
the original relative order. -/
theorem c2_aggregation_sorted_and_stable (cfg : ServiceConfig) (package_name : String)
    (fetcher : String → String → Except String (Option ByteData))
    (l : List VersionData) (hne : l ≠ [])
    (hv : ∀ vd ∈ l, vd.version.isSome) :
    ∃ p : Package,
      get_package cfg package_name (Except.ok l) fetcher = Except.ok p ∧
      p.versions.length = l.length ∧
      List.Pairwise (fun x y => lex_le (pv_key y).toList (pv_key x).toList = true) p.versions ∧
      (∀ i j : Nat, ∀ hi : i < p.versions.length, ∀ hj : j < p.versions.length, i < j →
        (p.versions.get ⟨i, hi⟩).create_time = none →
        (p.versions.get ⟨j, hj⟩).create_time = none) ∧
      (∀ k : String,
        p.versions.filter (fun r => pv_key r == k) =
          (l.filter (fun vd => ct_key vd == k)).map
            (convert_version_data cfg fetcher package_name)) := by
  obtain ⟨p, hp, hpv, -, -⟩ := get_package_ok cfg package_name fetcher l hne hv
  have hsorted : List.Pairwise
      (fun x y => lex_le (pv_key y).toList (pv_key x).toList = true) p.versions := by
    rw [hpv, List.pairwise_map]
    refine List.Pairwise.imp ?_ (sorted_sort_by_create_time_desc l)
    intro a b hab
    rw [pv_key_convert, pv_key_convert]
    exact hab
  have hnoempty : ∀ r ∈ p.versions, r.create_time ≠ some "" := by
    rw [hpv]
    intro r hr
    rcases List.mem_map.mp hr with ⟨vd, -, rfl⟩
    exact convert_create_time_ne_empty cfg fetcher package_name vd
  refine ⟨p, hp, ?_, hsorted, ?_, ?_⟩
  · rw [hpv]
    simp [length_sort_by_create_time_desc]
  · intro i j hi hj hij hnone
    have hrel := List.pairwise_iff_get.mp hsorted ⟨i, hi⟩ ⟨j, hj⟩ (Fin.mk_lt_mk.mpr hij)
    have hki : pv_key (p.versions.get ⟨i, hi⟩) = "" := by
      unfold pv_key
      rw [hnone]
      rfl
    rw [hki] at hrel
    have h0 : ("" : String).toList = ([] : List Char) := rfl
    rw [h0] at hrel
    have hkey : pv_key (p.versions.get ⟨j, hj⟩) = "" :=
      string_toList_eq_nil (lex_le_nil_right _ hrel)
    cases hct : (p.versions.get ⟨j, hj⟩).create_time with
    | none => rfl
    | some s =>
      exfalso
      have hs : s = "" := by
        unfold pv_key at hkey
        rw [hct] at hkey
        simpa using hkey
      exact hnoempty _ (p.versions.get_mem _ _) (by rw [hct, hs])
  · intro k
    rw [hpv, List.filter_map]
    have hcongr : ∀ x ∈ sort_by_create_time_desc l,
        ((fun r => pv_key r == k) ∘ convert_version_data cfg fetcher package_name) x =
          (fun vd => ct_key vd == k) x := by
      intro x hx
      simp [Function.comp, pv_key_convert]
    rw [List.filter_congr hcongr, filter_sort_by_create_time_desc]

/-- C2 witness: two concrete entries submitted oldest-first come back
newest-first, same length, sorted, with stable timestamp classes. -/
theorem c2_aggregation_sorted_and_stable_witness :
    ∃ p : Package,
      get_package cfg0 "pkg" (Except.ok [vd_t1, vd_t2]) fetch_ok = Except.ok p ∧
      p.versions.length = [vd_t1, vd_t2].length ∧
      List.Pairwise (fun x y => lex_le (pv_key y).toList (pv_key x).toList = true) p.versions ∧
      (∀ i j : Nat, ∀ hi : i < p.versions.length, ∀ hj : j < p.versions.length, i < j →
        (p.versions.get ⟨i, hi⟩).create_time = none →
        (p.versions.get ⟨j, hj⟩).create_time = none) ∧
      (∀ k : String,
        p.versions.filter (fun r => pv_key r == k) =
          ([vd_t1, vd_t2].filter (fun vd => ct_key vd == k)).map
            (convert_version_data cfg0 fetch_ok "pkg")) :=
  c2_aggregation_sorted_and_stable cfg0 "pkg" fetch_ok [vd_t1, vd_t2] (by simp) (by decide)
